import Mathlib

/-!
Verification development for the CV retrieval pipeline
(`app/parsers`, `app/chunker`, `app/vector_db`).

The Python sources are shallowly embedded: pure functions become Lean
functions, dynamic dictionary values become the `PyVal` inductive,
exceptions become `Except String`, and the regular expressions used by
the sources are embedded as explicit scanning functions with the same
matching semantics (leftmost match, greedy quantifiers with
backtracking, ASCII character classes).
-/

namespace Spec2Proof

/-! ## Python string primitives -/

/-- Whitespace characters as treated by Python `str.strip` / `str.split`
and the regex class `\s` (ASCII range). -/
def pyIsSpace (c : Char) : Bool :=
  c = ' ' || c = '\t' || c = '\n' || c = '\r' || c = '\x0b' || c = '\x0c'

/-- Python `str.strip()` on a character list. -/
def pyStripChars (cs : List Char) : List Char :=
  ((cs.dropWhile pyIsSpace).reverse.dropWhile pyIsSpace).reverse

/-- Python `str.strip()`. -/
def pyStrip (s : String) : String := String.mk (pyStripChars s.data)

/-- Python `str.lower()` (ASCII). -/
def pyLower (s : String) : String := String.mk (s.data.map Char.toLower)

/-- Python `str.upper()` (ASCII). -/
def pyUpper (s : String) : String := String.mk (s.data.map Char.toUpper)

/-- Helper for `pySplitWS`: accumulates the current word (reversed). -/
def pySplitWSAux : List Char → List Char → List String
  | [], acc => if acc.isEmpty then [] else [String.mk acc.reverse]
  | c :: cs, acc =>
    if pyIsSpace c then
      if acc.isEmpty then pySplitWSAux cs []
      else String.mk acc.reverse :: pySplitWSAux cs []
    else pySplitWSAux cs (c :: acc)

/-- Python `str.split()` with no argument: split on whitespace runs,
dropping empty fragments. -/
def pySplitWS (s : String) : List String := pySplitWSAux s.data []

/-- Python `str.split(sep)` for a one-character separator (the source
only splits on `"\\n"` and `"/"`): empty pieces are kept. -/
def pySplitCharAux (sep : Char) : List Char → List Char → List String
  | [], acc => [String.mk acc.reverse]
  | c :: cs, acc =>
    if c = sep then String.mk acc.reverse :: pySplitCharAux sep cs []
    else pySplitCharAux sep cs (c :: acc)

/-- Python `s.split(sep)` with a one-character separator. -/
def pySplitChar (sep : Char) (s : String) : List String := pySplitCharAux sep s.data []

/-- Python slice `l[a:b]` for non-negative indices. -/
def pySliceList {α : Type} (l : List α) (a b : Nat) : List α := (l.take b).drop a

/-- Python slice `l[i:]` where `i` may be negative (`l[-k:]` keeps the
last `k` elements; `l[-0:] = l[0:]` is the whole list). -/
def pySliceFrom {α : Type} (l : List α) (i : Int) : List α :=
  if 0 ≤ i then l.drop i.toNat else l.drop (l.length - (-i).toNat)

/-- The list `range(0, n, step)` of Python (for `step > 0`). -/
def pyRange0 (n step : Nat) : List Nat :=
  (List.range ((n + step - 1) / step)).map (· * step)

/-- Python `enumerate` (pairs of index and element). -/
def pyEnumFrom {α : Type} : Nat → List α → List (Nat × α)
  | _, [] => []
  | n, a :: as => (n, a) :: pyEnumFrom (n + 1) as

/-! ## Dynamic Python values

Metadata dictionaries and filter specifications are dynamically typed in
the source; `PyVal` models the values that flow through them. -/

inductive PyVal where
  | str (s : String)
  | int (n : Int)
  | bool (b : Bool)
  | list (xs : List PyVal)
  | dict (entries : List (String × PyVal))
  | none

/-- Python truthiness of a value (`if v:`). -/
def PyVal.truthy : PyVal → Bool
  | .str s => s ≠ ""
  | .int n => n ≠ 0
  | .bool b => b
  | .list xs => ¬ xs.isEmpty
  | .dict es => ¬ es.isEmpty
  | .none => false

/-- Python `str(v)` for the scalar values that occur in this code base
(container values are abbreviated, they never reach `str` here). -/
def pyStr : PyVal → String
  | .str s => s
  | .int n => toString n
  | .bool b => if b then "True" else "False"
  | .list _ => "[...]"
  | .dict _ => "{...}"
  | .none => "None"

/-- A Python `dict` with string keys, in insertion order. -/
abbrev PyDict := List (String × PyVal)

/-- Python `d.get(k)` / `d[k]` membership lookup. -/
def pyDictGet (d : PyDict) (k : String) : Option PyVal :=
  (d.find? (fun e => e.1 == k)).map (·.2)

/-- Python `d[k] = v` / the override entries of `\x7b**d, k: v\x7d`:
an existing key keeps its position, a new key is appended. -/
def pyDictSet (d : PyDict) (k : String) (v : PyVal) : PyDict :=
  if (d.find? (fun e => e.1 == k)).isSome then
    d.map (fun e => if e.1 == k then (k, v) else e)
  else d ++ [(k, v)]

/-! ## TextNormalizer (`app/parsers/text_normalizer.py`) -/

/-- `TextNormalizer.normalize`: lowercase, collapse whitespace runs to
single spaces; falsy (empty) input returns the empty string. -/
def normalize (text : String) : String :=
  if text = "" then "" else String.intercalate " " (pySplitWS (pyLower text))

/-- `TextNormalizer.extract_between_markers`.  `lines.index(marker)`
raises `ValueError` when the marker is absent, which the source catches;
note that the end marker is looked up from the start of the whole list,
not from the position after the start marker. -/
def extract_between_markers (lines : List String) (start_marker end_marker : String) :
    List String :=
  match lines.findIdx? (fun l => l == start_marker) with
  | Option.none => []
  | Option.some si =>
    let start_idx := si + 1
    match lines.findIdx? (fun l => l == end_marker) with
    | Option.none => (lines.drop start_idx).map normalize
    | Option.some end_idx => (pySliceList lines start_idx end_idx).map normalize

/-- Characters of the regex class `[ABCabc]` used by
`clean_language_entry` (the class already covers both cases, so the
additional `re.IGNORECASE` flag adds nothing on ASCII input). -/
def isCefrLetter (c : Char) : Bool :=
  c = 'A' || c = 'B' || c = 'C' || c = 'a' || c = 'b' || c = 'c'

/-- Regex `\w` on ASCII input: letters, digits and underscore. -/
def pyIsWordChar (c : Char) : Bool := c.isAlphanum || c = '_'

/-- Regex class `[\-\s]`. -/
def isDashOrSpace (c : Char) : Bool := c = '-' || pyIsSpace c

/-- The `\d{1,2}\b` tail shared by both patterns of
`clean_language_entry`: greedy (two digits are tried before one) with
backtracking against the trailing word boundary; returns the matched
digit string.  When two digits are available but the boundary after them
fails, the one-digit alternative also fails because the second digit is
itself a word character. -/
def digitMatch : List Char → Option String
  | [] => Option.none
  | d1 :: t1 =>
    if d1.isDigit then
      match t1 with
      | [] => Option.some (String.mk [d1])
      | d2 :: t2 =>
        if d2.isDigit then
          match t2 with
          | [] => Option.some (String.mk [d1, d2])
          | c :: _ =>
            if pyIsWordChar c then Option.none else Option.some (String.mk [d1, d2])
        else
          if pyIsWordChar d2 then Option.none else Option.some (String.mk [d1])
    else Option.none

/-- One attempt of `([ABCabc])[\-\s]*(\d{1,2})\b` at the head of the
suffix: the letter, then a maximal separator run, then `digitMatch`.
Returns the letter together with the digit string. -/
def cefrMatchAt (cs : List Char) : Option (Char × String) :=
  match cs with
  | [] => Option.none
  | c :: rest =>
    if isCefrLetter c then
      (digitMatch (rest.dropWhile isDashOrSpace)).map (fun ds => (c, ds))
    else Option.none

/-- Helper for `cefrSearch`: leftmost-match scan carrying the index. -/
def cefrSearchAux : Nat → List Char → Option (Nat × Char × String)
  | _, [] => Option.none
  | i, c :: cs =>
    match cefrMatchAt (c :: cs) with
    | Option.some (l, ds) => Option.some (i, l, ds)
    | Option.none => cefrSearchAux (i + 1) cs

/-- `re.search` of the level pattern of `clean_language_entry`: index of
the matched letter (`match.start(1)`), the letter (`group(1)`, original
case) and the digit string (`group(2)`). -/
def cefrSearch (s : String) : Option (Nat × Char × String) := cefrSearchAux 0 s.data

/-- `re.sub` of pattern `[^\w\s]` with a space. -/
def cleanNonAlnum (s : String) : String :=
  String.mk (s.data.map (fun c => if pyIsWordChar c || pyIsSpace c then c else ' '))

/-- `re.sub` of `\s+` with one space followed by `.strip()` (equally,
joining the whitespace-split words with single spaces). -/
def collapseSpaces (s : String) : String := String.intercalate " " (pySplitWS s)

/-- Helper for `fallbackSearch`: the first index holding a digit at
which `\d{1,2}\b` succeeds.  A failed digit is stepped over one
character at a time, matching how `re.search` advances the start
position of `([^\d]*?)(\d{1,2})\b` (the lazy prefix cannot absorb a
digit, so each digit position is a fresh empty-prefix attempt). -/
def fallbackSearchAux : Nat → List Char → Option (Nat × String)
  | _, [] => Option.none
  | i, c :: cs =>
    if c.isDigit then
      match digitMatch (c :: cs) with
      | Option.some ds => Option.some (i, ds)
      | Option.none => fallbackSearchAux (i + 1) cs
    else fallbackSearchAux (i + 1) cs

/-- `re.search` of the fallback pattern `([^\d]*?)(\d{1,2})\b`: the
position of the matched digits and the digit string. -/
def fallbackSearch (s : String) : Option (Nat × String) := fallbackSearchAux 0 s.data

/-- Removes a trailing run of characters satisfying the predicate
(`re.sub` of an anchored `...+$` pattern with the empty string). -/
def dropTrailing (p : Char → Bool) (s : String) : String :=
  String.mk (s.data.reverse.dropWhile p).reverse

/-- `TextNormalizer.clean_language_entry`.  In the fallback branch
`group(1)` is the maximal digit-free span that immediately precedes the
matched digits (the lazy prefix of the leftmost match). -/
def clean_language_entry (text : String) : String × Option String :=
  match cefrSearch text with
  | Option.some (level_start, level_letter, level_digit) =>
    let level_full := String.mk [level_letter] ++ level_digit
    let text_before := pyStrip (String.mk (text.data.take level_start))
    let text_before_cleaned := collapseSpaces (cleanNonAlnum text_before)
    (text_before_cleaned ++ " " ++ level_full, Option.some level_full)
  | Option.none =>
    match fallbackSearch text with
    | Option.some (p, level_digit) =>
      let group1 := String.mk ((text.data.take p).reverse.takeWhile (fun c => ¬ c.isDigit)).reverse
      let tb0 := pyStrip group1
      let tb1 := dropTrailing (fun c => ¬ (pyIsWordChar c || pyIsSpace c)) tb0
      let tb2 := pyStrip (dropTrailing isDashOrSpace tb1)
      if tb2 ≠ "" then (tb2 ++ " " ++ level_digit, Option.some level_digit)
      else (normalize text, Option.none)
    | Option.none => (normalize text, Option.none)

/-- A word boundary `\b` holds at a position iff exactly one of the two
surrounding characters is a word character (out of string counts as
non-word). -/
def pyWordBoundary (left right : Option Char) : Bool :=
  (match left with | Option.none => false | Option.some c => pyIsWordChar c) !=
  (match right with | Option.none => false | Option.some c => pyIsWordChar c)

/-- Matches the literal `kw` at the head of `cs`, returning the
remainder. -/
def literalMatchesAt : List Char → List Char → Option (List Char)
  | [], rest => Option.some rest
  | _ :: _, [] => Option.none
  | k :: ks, c :: rest => if c = k then literalMatchesAt ks rest else Option.none

/-- Matches the literal `kw` at the head of `cs` case-insensitively
(ASCII folding, as `re.IGNORECASE` does here). -/
def literalMatchesCIAt : List Char → List Char → Option (List Char)
  | [], rest => Option.some rest
  | _ :: _, [] => Option.none
  | k :: ks, c :: rest =>
    if c.toUpper = k.toUpper then literalMatchesCIAt ks rest else Option.none

/-- One attempt of `\b(a1|a2|...)\b` at the current position: the
alternatives are tried in order (as the regex engine does), each checked
against both word boundaries. -/
def altWordMatchAt (alts : List String) (prev : Option Char) (cs : List Char) : Option String :=
  match alts with
  | [] => Option.none
  | a :: rest =>
    match literalMatchesAt a.data cs with
    | Option.some remainder =>
      if pyWordBoundary prev cs.head? && pyWordBoundary a.data.getLast? remainder.head? then
        Option.some a
      else altWordMatchAt rest prev cs
    | Option.none => altWordMatchAt rest prev cs

/-- Helper for `altWordSearch`: leftmost scan keeping the previous
character for the leading boundary test. -/
def altWordSearchAux (alts : List String) : Option Char → List Char → Option String
  | _, [] => Option.none
  | prev, c :: cs =>
    match altWordMatchAt alts prev (c :: cs) with
    | Option.some a => Option.some a
    | Option.none => altWordSearchAux alts (Option.some c) cs

/-- `re.surch` of `\b(alt1|alt2|...)\b` over a string: the first (group 1)
text matched, if any. -/
def altWordSearch (alts : List String) (s : String) : Option String :=
  altWordSearchAux alts Option.none s.data

/-- The ten `LEVEL_PATTERNS` regexes of `extract_position_level`, each
given as its ordered list of literal alternatives (the class `[- ]` of
`ENTRY[- ]LEVEL` is expanded into the two literals it accepts). -/
def LEVEL_PATTERNS : List (List String) :=
  [["SENIOR"], ["JUNIOR"], ["MIDDLE"], ["LEAD"], ["INTERN", "INTERNSHIP"],
   ["ENTRY-LEVEL", "ENTRY LEVEL"], ["PRINCIPAL"], ["STAFF"], ["SR."], ["JR."]]

/-- `re.sub(pattern, text, 1)` with a case-insensitive literal: removes
the first case-insensitive occurrence of `kw`, if any. -/
def removeFirstCI (kw : List Char) : List Char → List Char
  | [] => []
  | c :: cs =>
    match literalMatchesCIAt kw (c :: cs) with
    | Option.some remainder => remainder
    | Option.none => c :: removeFirstCI kw cs

/-- The tail of the separator-cleanup pattern `\s+/\s*/\s*` after its
mandatory first whitespace character: `\s*/\s*/\s*`, returning the
remainder after the match. -/
def slashTailMatch (cs : List Char) : Option (List Char) :=
  match cs.dropWhile pyIsSpace with
  | '/' :: r2 =>
    match r2.dropWhile pyIsSpace with
    | '/' :: r4 => Option.some (r4.dropWhile pyIsSpace)
    | _ => Option.none
  | _ => Option.none

/-- Helper fact needed by the termination argument of the separator
cleanup below: a successful match consumes at least the leading
characters it inspected. -/
theorem slashTailMatch_length_le {cs r : List Char} (h : slashTailMatch cs = Option.some r) :
    r.length ≤ cs.length := by
  have l1 := (List.dropWhile_sublist (l := cs) pyIsSpace).length_le
  unfold slashTailMatch at h
  split at h
  case _ r2 heq =>
    have l2 := (List.dropWhile_sublist (l := r2) pyIsSpace).length_le
    split at h
    case _ r4 heq2 =>
      have l3 := (List.dropWhile_sublist (l := r4) pyIsSpace).length_le
      simp only [Option.some.injEq] at h
      subst h
      rw [heq] at l1
      rw [heq2] at l2
      simp only [List.length_cons] at l1 l2
      omega
    case _ => cases h
  case _ => cases h

/-- `re.sub` of `\s+/\s*/\s*` with `/` (global, leftmost,
non-overlapping): doubled slashes together with their surrounding
whitespace collapse to a single slash.  The greedy `\s+` must reach a
slash, so a match can only begin at a whitespace character. -/
def subDoubleSlashAux : List Char → List Char
  | [] => []
  | c :: cs =>
    if pyIsSpace c then
      match h : slashTailMatch cs with
      | Option.some r => '/' :: subDoubleSlashAux r
      | Option.none => c :: subDoubleSlashAux cs
    else c :: subDoubleSlashAux cs
termination_by cs => cs.length
decreasing_by
  · have hle := slashTailMatch_length_le h
    simp only [List.length_cons]
    omega
  · simp only [List.length_cons]; omega
  · simp only [List.length_cons]; omega

/-- `re.sub` of `^\s*[/\s]+|[/\s]+\s*$` with the empty string: both
anchored alternatives simply strip the maximal leading and trailing runs
of slashes and whitespace. -/
def stripSlashSpace (s : String) : String :=
  let p := fun c => c = '/' || pyIsSpace c
  String.mk ((s.data.dropWhile p).reverse.dropWhile p).reverse

/-- `TextNormalizer.extract_position_level`: the first of the
`LEVEL_PATTERNS` that matches the uppercased text wins; the matched
keyword (`group(1).upper()`, already upper case) is removed from the
original text case-insensitively, separators are cleaned, and the
remainder is normalized. -/
def extract_position_level (text : String) : Option String × String :=
  let upper_text := pyUpper text
  match LEVEL_PATTERNS.findSome? (fun alts => altWordSearch alts upper_text) with
  | Option.some found_level =>
    let text1 := String.mk (removeFirstCI found_level.data text.data)
    let text2 := String.mk (subDoubleSlashAux text1.data)
    let text3 := stripSlashSpace text2
    let text4 := collapseSpaces text3
    (Option.some found_level, normalize text4)
  | Option.none => (Option.none, normalize text)

/-! ## Chunker (`app/chunker/chunker.py`) -/

/-- The sentence terminators of the split pattern `[.!?]+`. -/
def pyIsSentenceTerm (c : Char) : Bool := c = '.' || c = '!' || c = '?'

/-- Helper for `reSplitTerms`: accumulates the current piece (reversed);
a maximal terminator run is one separator, ending the current piece.
The flag records that the scanner stands inside a terminator run whose
piece has already been emitted (the accumulator is empty then, so the
final flush uniformly emits the trailing piece). -/
def reSplitTermsAux : List Char → List Char → Bool → List String
  | [], acc, _ => [String.mk acc.reverse]
  | c :: cs, acc, skipping =>
    if pyIsSentenceTerm c then
      if skipping then reSplitTermsAux cs acc true
      else String.mk acc.reverse :: reSplitTermsAux cs [] true
    else reSplitTermsAux cs (c :: acc) false

/-- `re.split` on the pattern `[.!?]+` (empty pieces are kept, exactly
as the Python call returns them; the caller filters them out). -/
def reSplitTerms (s : String) : List String := reSplitTermsAux s.data [] false

/-- The `Chunk` dataclass.  Its `id` field is annotated `int` in the
source but always receives the formatted id string, so it is embedded as
a string. -/
structure Chunk where
  text : String
  id : String
  metadata : PyDict

/-- `Chunk.from_dict`: the metadata is the caller metadata merged (dict
literal `\x7b**meta, ...\x7d`) with `chunk_number` and `chunks_overall`. -/
def Chunk.from_dict (text id : String) (chunk_number chunks_overall : Int) (meta : PyDict) :
    Chunk :=
  { text := text
    id := id
    metadata :=
      pyDictSet (pyDictSet meta "chunk_number" (PyVal.int chunk_number))
        "chunks_overall" (PyVal.int chunks_overall) }

/-- `SimpleChunker._split_long_sentence`.  With `chunk_size < 10` the
word-group size `chunk_size // 10` is zero and the Python `range` call
raises `ValueError`. -/
def _split_long_sentence (chunk_size : Nat) (sentence : String) : Except String (List String) :=
  let words := pySplitWS sentence
  let step := chunk_size / 10
  if step = 0 then Except.error "ValueError: range() arg 3 must not be zero"
  else
    Except.ok ((pyRange0 words.length step).map
      (fun i => String.intercalate " " (pySliceList words i (i + step))))

/-- One iteration of the sentence loop of
`SimpleChunker.chunk_by_sentences`, acting on the state
`(texts, current_chunk)`.  The overlap seed is
`current_chunk.split()[-overlap//10:]`: Python computes
`(-overlap)//10` (floor division), so the slice keeps the last
`ceil(overlap/10)` words for `overlap >= 1` and the whole word list for
`overlap = 0` (index `0` means "from the start"). -/
def chunkStep (chunk_size overlap : Nat) (st : List String × String) (sentence : String) :
    Except String (List String × String) :=
  let texts := st.1
  let current_chunk := st.2
  if current_chunk.length + sentence.length > chunk_size then
    if current_chunk ≠ "" then
      let overlap_sentences :=
        pySliceFrom (pySplitWS current_chunk) (Int.fdiv (-(overlap : Int)) 10)
      let seeded := String.intercalate " " overlap_sentences ++ " "
      Except.ok (texts ++ [current_chunk], seeded ++ sentence ++ ". ")
    else
      (_split_long_sentence chunk_size sentence).map
        (fun frags => (texts ++ frags, current_chunk))
  else Except.ok (texts, current_chunk ++ sentence ++ ". ")

/-- The text-accumulation phase of `SimpleChunker.chunk_by_sentences`:
sentence split, the greedy loop, and the final flush of a non-empty
buffer. -/
def chunk_texts (chunk_size overlap : Nat) (text : String) : Except String (List String) := do
  let sentences := ((reSplitTerms text).map pyStrip).filter (fun s => s ≠ "")
  let st ← sentences.foldlM (chunkStep chunk_size overlap) ([], "")
  if st.2 ≠ "" then pure (st.1 ++ [st.2]) else pure st.1

/-- The id prefix `meta.get('CV_id', uuid.uuid4())` rendered by the
f-string: the stringified `CV_id` entry when present, otherwise the
uuid freshly drawn for this call of `get`. -/
def cvSourceId (meta : PyDict) (freshUuid : String) : String :=
  match pyDictGet meta "CV_id" with
  | Option.some v => pyStr v
  | Option.none => freshUuid

/-- `SimpleChunker.chunk_by_sentences`: texts are wrapped into `Chunk`
records with 1-based sequential numbering, the total count, and the id
pattern `srcId ++ "_chunk#" ++ n`.  The f-string default
`meta.get('CV_id', uuid.uuid4())` is evaluated at EACH iteration of the
wrapping loop, drawing one uuid per chunk; the embedding receives the
stream of draws as `freshUuids`, indexed by the loop counter (the only
non-deterministic input of the function). -/
def chunk_by_sentences (chunk_size overlap : Nat) (text : String) (meta : PyDict)
    (freshUuids : Nat → String) : Except String (List Chunk) := do
  let texts ← chunk_texts chunk_size overlap text
  pure ((pyEnumFrom 0 texts).map (fun p =>
    Chunk.from_dict p.2
      (cvSourceId meta (freshUuids p.1) ++ "_chunk#" ++ toString (p.1 + 1)) (p.1 + 1 : Int)
      (texts.length : Int) meta))

/-! ## Data models (`app/parsers/models.py`) -/

/-- The `PersonalInfo` dataclass of `models.py`: its fields are
`candidate_name`, `level`, `roles`, `education`, `languages`, `domains`,
`description` (there is no field called `name`). -/
structure PersonalInfo where
  candidate_name : String
  level : Option String
  roles : List String
  education : List String
  languages : List String
  domains : List String
  description : String

/-- The `Project` dataclass of `models.py`. -/
structure Project where
  project_name : String
  candidate_name : String
  description : String
  roles : List String
  cv_id : String
deriving DecidableEq

/-- The `CV` dataclass of `models.py`. -/
structure CV where
  personal_info : PersonalInfo
  projects : List Project
  cv_id : String

/-! ## Python dataclass keyword-call semantics

`_parse_personal_info` ends with `PersonalInfo(name=..., level=..., ...)`.
A Python dataclass constructor called with a keyword that is not a
declared field raises `TypeError` (and a missing required field raises
`TypeError` as well); the check below models that call protocol. -/

/-- The declared fields of the `PersonalInfo` dataclass, in order. -/
def personalInfoFields : List String :=
  ["candidate_name", "level", "roles", "education", "languages", "domains", "description"]

/-- The fields of `PersonalInfo` that have no default value. -/
def personalInfoRequiredFields : List String := ["candidate_name"]

/-- The keyword names used at the `PersonalInfo(...)` construction site
in `InnoStandardParser._parse_personal_info` (lines 101-108) — note the
first keyword is `name`, not `candidate_name`. -/
def parsePersonalInfoKeywords : List String :=
  ["name", "level", "roles", "education", "languages", "domains", "description"]

/-- A dataclass call with keyword arguments succeeds iff every keyword
names a declared field and every required field receives a keyword. -/
def pyDataclassCallOk (fields required kwargs : List String) : Bool :=
  kwargs.all (fun k => fields.contains k) && required.all (fun f => kwargs.contains f)

/-! ## Document input model

A parsed DOCX document exposes ordered paragraphs (their `.text`) and
tables; a table is a list of rows, a row a list of cell texts. -/

structure Document where
  paragraphs : List String
  tables : List (List (List String))

/-! ## Project parser (`app/parsers/project_parser.py`) -/

/-- `InnoProjectParser.parse_project_row`.  The `cv_id` and
`candidate_name` parameters default to the empty string in the source;
the caller in `_parse_projects` passes neither. -/
def parse_project_row (cells : List String) (cv_id : String) (candidate_name : String) :
    Except String Project :=
  if cells.length < 2 then
    Except.error "ValueError: Project row must have at least 2 cells"
  else
    let description := cells.getD 1 ""
    let project_name_parts := pySplitChar '\n' (cells.getD 0 "")
    let pn_sum :=
      if project_name_parts.length < 2 then (project_name_parts.getD 0 "", "")
      else (project_name_parts.getD 0 "", project_name_parts.getD 1 "")
    let description_lines := pySplitChar '\n' description
    let roles_line := extract_between_markers description_lines "Project roles" "Period"
    let roles := if roles_line ≠ [] then pySplitChar '/' (roles_line.getD 0 "") else []
    let description2 := if pn_sum.2 ≠ "" then pn_sum.2 ++ " " ++ description else description
    Except.ok
      { project_name := normalize pn_sum.1
        candidate_name := candidate_name
        description := normalize description2
        roles := roles.map normalize
        cv_id := cv_id }

/-! ## Main parser (`app/parsers/inno_parser.py`) -/

/-- `InnoStandardParser._parse_projects`: rows of table 1 after the
header, each parsed by `parse_project_row(row.cells)` — the call passes
only the cells, leaving `cv_id` and `candidate_name` at their declared
defaults `""`; a failing row is skipped. -/
def _parse_projects (doc : Document) : List Project :=
  if doc.tables.length < 2 then []
  else
    let projects_table := doc.tables.getD 1 []
    (projects_table.drop 1).foldl
      (fun projects row =>
        match parse_project_row row "" "" with
        | Except.ok p => projects ++ [p]
        | Except.error _ => projects)
      []

/-- `InnoStandardParser._parse_personal_info`.  All extraction steps are
performed, and the final `PersonalInfo(name=..., ...)` construction is
subject to the dataclass keyword check: the keyword `name` is not a
field of `PersonalInfo`, so the construction raises `TypeError` (in the
guarded dead branch the keyword values are mapped positionally). -/
def _parse_personal_info (doc : Document) : Except String PersonalInfo :=
  let paragraphs := (doc.paragraphs.map pyStrip).filter (fun p => p ≠ "")
  if paragraphs.length < 3 then
    Except.error "ValueError: Expected at least 3 paragraphs"
  else
    let name := paragraphs.getD 0 ""
    let position_text := paragraphs.getD 1 ""
    let lp := extract_position_level position_text
    let roles := (pySplitChar '/' lp.2).map normalize
    if doc.tables.isEmpty then Except.error "ValueError: Document has no tables"
    else
      match doc.tables.getD 0 [] with
      | [] => Except.error "IndexError: list index out of range"
      | row0 :: _ =>
        match row0 with
        | [] => Except.error "IndexError: list index out of range"
        | cell0 :: restCells =>
          let about_lines := pySplitChar '\n' cell0
          let education := extract_between_markers about_lines "Education" "Language proficiency"
          let languages_raw :=
            extract_between_markers about_lines "Language proficiency" "Domains"
          let languages := languages_raw.map (fun lang => (clean_language_entry lang).1)
          let domains := extract_between_markers about_lines "Domains" "Certificates"
          let description :=
            match restCells with
            | [] => ""
            | cell1 :: _ =>
              let description_lines := pySplitChar '\n' cell1
              if description_lines.length > 1 then description_lines.getD 1 "" else ""
          if pyDataclassCallOk personalInfoFields personalInfoRequiredFields
              parsePersonalInfoKeywords then
            Except.ok
              { candidate_name := name, level := lp.1, roles := roles,
                education := education, languages := languages, domains := domains,
                description := normalize description }
          else
            Except.error
              "TypeError: PersonalInfo.init got an unexpected keyword argument name"

/-- The attribute access `personal_info.<attr>` for string-valued
attributes, as used by `parse` (`personal_info.name`): `PersonalInfo`
has no attribute `name`, so that access raises `AttributeError`. -/
def pyGetAttrPersonalInfo (pi : PersonalInfo) (attr : String) : Except String String :=
  if attr = "candidate_name" then Except.ok pi.candidate_name
  else if attr = "description" then Except.ok pi.description
  else Except.error ("AttributeError: PersonalInfo object has no attribute " ++ attr)

/-- `InnoStandardParser.parse` on an already-loaded document (the file
existence check and `Document(file_path)` loading are the boundary to
the file system; `int(time.time())` is the `parse_time` parameter).
Every exception of the body is re-raised as `ValueError` with file
context. -/
def parse (doc : Document) (parse_time : Nat) : Except String CV :=
  let body : Except String CV := do
    let personal_info ← _parse_personal_info doc
    let projects := _parse_projects doc
    let nm ← pyGetAttrPersonalInfo personal_info "name"
    pure { personal_info := personal_info, projects := projects,
           cv_id := nm ++ "_" ++ toString parse_time }
  match body with
  | Except.ok cv => Except.ok cv
  | Except.error e => Except.error ("ValueError: Error parsing DOCX file: " ++ e)

/-! ## Vector store abstraction (`app/vector_db/manager.py`)

Scores are embedded as rationals; backend calls are modeled by oracle
functions returning `Except String` so that the `try/except` blocks of
the source translate to matches on the oracle result. -/

/-- The `SearchResult` dataclass.  `document` and `metadata` are copied
from dynamically-typed payloads, hence `PyVal`. -/
structure SearchResult where
  id : String
  document : PyVal
  metadata : PyVal
  score : ℚ
  distance : Option ℚ

/-- The `CollectionInfo` dataclass. -/
structure CollectionInfo where
  name : String
  count : Nat
  metadata : PyDict
  dimensions : Option Nat

/-! ## Qdrant backend (`app/vector_db/qdrant.py`) -/

/-- A scored point of a Qdrant query response. -/
structure ScoredPoint where
  payload : PyDict
  score : ℚ

/-- Iterating a pydantic response model yields `(field_name, value)`
pairs; `QueryResponse` has the single field `points`, so iterating it
yields one such pair.  `_format_results` iterates the response object
itself. -/
abbrev QdrantQueryResponse := List (String × List ScoredPoint)

/-- One iteration of the `_format_results` loop of `QdrantManager`:
for the iterated pair `result` it reads `result[1][0]` — the FIRST point
of the pair value — so an empty point list raises `IndexError` (caught
by the callers). -/
def qdrantFormatStep (formatted : List SearchResult) (result : String × List ScoredPoint) :
    Except String (List SearchResult) :=
  match result.2.head? with
  | Option.none => Except.error "IndexError: list index out of range"
  | Option.some pt =>
    Except.ok (formatted ++
      [{ id := pyStr ((pyDictGet pt.payload "text_id").getD PyVal.none)
         document := (pyDictGet pt.payload "document").getD PyVal.none
         metadata := (pyDictGet pt.payload "metadata").getD PyVal.none
         score := pt.score
         distance := Option.some (1 - pt.score) }])

/-- `QdrantManager._format_results`. -/
def qdrant_format_results (results : QdrantQueryResponse) :
    Except String (List SearchResult) :=
  results.foldlM qdrantFormatStep []

/-- A Qdrant match clause: `\x7b"match": \x7b"value": v\x7d\x7d` or
`\x7b"match": \x7b"any": vs\x7d\x7d`. -/
inductive QMatch where
  | value (v : PyVal)
  | anyOf (vs : List PyVal)

/-- A Qdrant field condition; `mtch` embeds the `"match"` key. -/
structure QCondition where
  key : String
  mtch : QMatch

/-- A Qdrant `Filter`; an empty list embeds an absent clause (the source
only puts non-empty lists into `filter_dict`). -/
structure QFilter where
  must : List QCondition
  should : List QCondition

/-- The accumulation loop of `QdrantManager._build_filter_from_format`
over the filter-spec entries, carrying `must_conditions` and
`should_conditions`. -/
def buildFilterLoop (filters : List (String × PyVal))
    (must_conditions should_conditions : List QCondition) :
    List QCondition × List QCondition :=
  match filters with
  | [] => (must_conditions, should_conditions)
  | (field_name, filter_config) :: rest =>
    match filter_config with
    | PyVal.dict cfg =>
      let must := (pyDictGet cfg "must").getD (PyVal.bool true)
      let values := (pyDictGet cfg "values").getD (PyVal.list [])
      if ¬ values.truthy then buildFilterLoop rest must_conditions should_conditions
      else
        let valuesList := match values with | PyVal.list vs => vs | v => [v]
        let field_path := "metadata." ++ field_name
        if must.truthy then
          buildFilterLoop rest
            (must_conditions ++
              valuesList.map (fun v => { key := field_path, mtch := QMatch.value v }))
            should_conditions
        else
          buildFilterLoop rest must_conditions
            (should_conditions ++ [{ key := field_path, mtch := QMatch.anyOf valuesList }])
    | _ => buildFilterLoop rest must_conditions should_conditions

/-- `QdrantManager._build_filter_from_format`: `None` when no condition
was produced, otherwise the `Filter` with the collected clauses. -/
def _build_filter_from_format (filters : List (String × PyVal)) : Option QFilter :=
  let conds := buildFilterLoop filters [] []
  if conds.1.isEmpty && conds.2.isEmpty then Option.none
  else Option.some { must := conds.1, should := conds.2 }

/-- A point upserted into Qdrant: numeric id (the enumeration index at
insert time), vector, and the payload carrying the semantic id. -/
structure QdrantPoint where
  id : Nat
  vector : List ℚ
  payload : PyDict

/-- The oracle for the `QdrantClient` calls reachable from the manager:
each field gives the backend reply (or exception) for one client
method. -/
structure QdrantBackend where
  getCollections : Except String (List String)
  getCollection : String → Except String PyDict
  countPoints : String → Except String Nat
  createCollection : String → Option PyDict → Except String Unit
  deleteCollection : String → Except String Unit
  upsert : String → List QdrantPoint → Except String Unit
  queryPoints : String → Option QFilter → List ℚ → Nat → Except String QdrantQueryResponse

/-- The `QdrantManager` state: the `_is_connected` flag, the embedder
dimensionality, the embedder call (an embedder is mandatory for this
backend), and the client oracle. -/
structure QdrantManager where
  is_connected : Bool
  dimensions : Nat
  embed : List String → Except String (List (List ℚ))
  client : QdrantBackend

/-- `QdrantManager.list_collections`. -/
def QdrantManager.list_collections (st : QdrantManager) : List String :=
  if ¬ st.is_connected then []
  else
    match st.client.getCollections with
    | Except.ok colls => colls
    | Except.error _ => []

/-- `QdrantManager.get_collection_info` (the `or \x7b\x7d` on
`collection.config.params` is the identity on the embedded `PyDict`,
whose falsy value is the empty dict). -/
def QdrantManager.get_collection_info (st : QdrantManager) (name : String) : CollectionInfo :=
  if ¬ st.is_connected then
    { name := name, count := 0, metadata := [], dimensions := Option.none }
  else
    match st.client.getCollection name with
    | Except.error _ => { name := name, count := 0, metadata := [], dimensions := Option.none }
    | Except.ok params =>
      match st.client.countPoints name with
      | Except.error _ =>
        { name := name, count := 0, metadata := [], dimensions := Option.none }
      | Except.ok cnt =>
        { name := name, count := cnt, metadata := params,
          dimensions := Option.some st.dimensions }

/-- `QdrantManager.create_collection`. -/
def QdrantManager.create_collection (st : QdrantManager) (name : String)
    (metadata : Option PyDict) : Bool :=
  if ¬ st.is_connected then false
  else
    match st.client.createCollection name metadata with
    | Except.ok _ => true
    | Except.error _ => false

/-- `QdrantManager.delete_collection`. -/
def QdrantManager.delete_collection (st : QdrantManager) (name : String) : Bool :=
  if ¬ st.is_connected then false
  else
    match st.client.deleteCollection name with
    | Except.ok _ => true
    | Except.error _ => false

/-- The point list built by `QdrantManager.insert_documents`: `zip` over
ids, embeddings, documents and metadatas with the enumeration index as
the numeric point id and the semantic id kept in the payload under
`text_id`. -/
def qdrantBuildPoints (ids : List String) (embeddings : List (List ℚ))
    (documents : List String) (metadatas : List PyDict) : List QdrantPoint :=
  (pyEnumFrom 0 (ids.zip (embeddings.zip (documents.zip metadatas)))).map
    (fun p =>
      { id := p.1
        vector := p.2.2.1
        payload :=
          [("document", PyVal.str p.2.2.2.1), ("metadata", PyVal.dict p.2.2.2.2),
           ("text_id", PyVal.str p.2.1)] })

/-- `QdrantManager.insert_documents`. -/
def QdrantManager.insert_documents (st : QdrantManager) (collection_name : String)
    (documents : List String) (metadatas : List PyDict) (ids : List String) : Bool :=
  if ¬ st.is_connected then false
  else
    match st.embed documents with
    | Except.error _ => false
    | Except.ok embeddings =>
      match st.client.upsert collection_name
        (qdrantBuildPoints ids embeddings documents metadatas) with
      | Except.ok _ => true
      | Except.error _ => false

/-- `QdrantManager.search`. -/
def QdrantManager.search (st : QdrantManager) (collection_name : String)
    (query_text : Option String) (query_embedding : Option (List ℚ)) (limit : Nat) :
    List SearchResult :=
  if ¬ st.is_connected then []
  else
    let emb : Except String (Option (List ℚ)) :=
      match query_embedding, query_text with
      | Option.none, Option.some qt =>
        match st.embed [qt] with
        | Except.ok es =>
          match es.head? with
          | Option.some e => Except.ok (Option.some e)
          | Option.none => Except.error "IndexError: list index out of range"
        | Except.error e => Except.error e
      | Option.none, Option.none => Except.ok Option.none
      | Option.some e, _ => Except.ok (Option.some e)
    match emb with
    | Except.error _ => []
    | Except.ok Option.none => []
    | Except.ok (Option.some qe) =>
      match st.client.queryPoints collection_name Option.none qe limit with
      | Except.error _ => []
      | Except.ok response =>
        match qdrant_format_results response with
        | Except.ok out => out
        | Except.error _ => []

/-- `QdrantManager.filtered_search` (the `query_points` call passes no
`limit`, so the client default of 10 applies; `filters` is a dict by
type, so only the query emptiness check of the `if not query or not
isinstance(filters, dict)` guard is live here). -/
def QdrantManager.filtered_search (st : QdrantManager) (collection_name : String)
    (query : String) (filters : List (String × PyVal)) : List SearchResult :=
  if ¬ st.is_connected then []
  else if query = "" then []
  else
    match st.embed [query] with
    | Except.error _ => []
    | Except.ok es =>
      match es.head? with
      | Option.none => []
      | Option.some query_embedding =>
        let qdrant_filter := _build_filter_from_format filters
        match st.client.queryPoints collection_name qdrant_filter query_embedding 10 with
        | Except.error _ => []
        | Except.ok response =>
          match qdrant_format_results response with
          | Except.ok out => out
          | Except.error _ => []

/-! ## Chroma backend (`app/vector_db/chroma.py`) -/

/-- A Chroma `query` reply.  `ids` is always present in a reply (the
source subscripts it directly); the other three are read through
truthiness guards, with `Option.none` embedding an absent or null
value. -/
structure ChromaQueryResult where
  ids : List (List String)
  documents : Option (List (List PyVal))
  metadatas : Option (List (List PyVal))
  distances : Option (List (List ℚ))

/-- Python `l[i]`: `IndexError` when out of range. -/
def pyListGet {α : Type} (l : List α) (i : Nat) : Except String α :=
  match l.get? i with
  | Option.some a => Except.ok a
  | Option.none => Except.error "IndexError: list index out of range"

/-- The conditional expression
`results['metadatas'][0][i] if results['metadatas'] else \x7b\x7d` of the
`ChromaManager._format_results` loop. -/
def chromaMetadataAt (results : ChromaQueryResult) (i : Nat) : Except String PyVal :=
  match results.metadatas with
  | Option.none => Except.ok (PyVal.dict [])
  | Option.some ml =>
    if ml.isEmpty then Except.ok (PyVal.dict [])
    else do
      let r0 ← pyListGet ml 0
      pyListGet r0 i

/-- The two conditional expressions assigning `score` and `distance` in
the `ChromaManager._format_results` loop: BOTH receive
`results['distances'][0][i]` — the RAW distance — when distances are
present, and `0.0` / `None` otherwise. -/
def chromaScoreDist (results : ChromaQueryResult) (i : Nat) : Except String (ℚ × Option ℚ) :=
  match results.distances with
  | Option.none => Except.ok ((0 : ℚ), Option.none)
  | Option.some dl =>
    if dl.isEmpty then Except.ok ((0 : ℚ), Option.none)
    else do
      let r0 ← pyListGet dl 0
      let d ← pyListGet r0 i
      Except.ok (d, Option.some d)

/-- One iteration of the `_format_results` loop of `ChromaManager`. -/
def chromaFormatStep (results : ChromaQueryResult) (docs0 : List PyVal)
    (formatted : List SearchResult) (i : Nat) : Except String (List SearchResult) := do
  let idsRow ← pyListGet results.ids 0
  let idv ← pyListGet idsRow i
  let docv ← pyListGet docs0 i
  let mdv ← chromaMetadataAt results i
  let scoreDist ← chromaScoreDist results i
  Except.ok (formatted ++
    [{ id := idv, document := docv, metadata := mdv,
       score := scoreDist.1, distance := scoreDist.2 }])

/-- `ChromaManager._format_results`.  The guard is
`results.get('documents') and results['documents'][0]`. -/
def chroma_format_results (results : ChromaQueryResult) :
    Except String (List SearchResult) :=
  match results.documents with
  | Option.none => Except.ok []
  | Option.some docs =>
    match docs with
    | [] => Except.ok []
    | docs0 :: _ =>
      if docs0.isEmpty then Except.ok []
      else (List.range docs0.length).foldlM (chromaFormatStep results docs0) []

/-- A Chroma collection handle: its count, metadata, and the `add` /
`query` calls as oracles. -/
structure ChromaCollection where
  count : Except String Nat
  metadata : PyDict
  add : Option (List (List ℚ)) → List String → List PyDict → List String → Except String Unit
  query : Option (List (List ℚ)) → Option (List String) → Nat →
    Except String ChromaQueryResult

/-- The oracle for the `chromadb.HttpClient` calls reachable from the
manager. -/
structure ChromaBackend where
  listCollections : Except String (List String)
  getCollection : String → Except String ChromaCollection
  createCollection : String → PyDict → Except String Unit
  deleteCollection : String → Except String Unit

/-- The `ChromaManager` state: the `_is_connected` flag, the optional
embedder, and the client oracle. -/
structure ChromaManager where
  is_connected : Bool
  embedder : Option (List String → Except String (List (List ℚ)))
  client : ChromaBackend

/-- `ChromaManager.list_collections`. -/
def ChromaManager.list_collections (st : ChromaManager) : List String :=
  if ¬ st.is_connected then []
  else
    match st.client.listCollections with
    | Except.ok colls => colls
    | Except.error _ => []

/-- `ChromaManager.get_collection_info` (again `or \x7b\x7d` is the
identity on the embedded metadata dict). -/
def ChromaManager.get_collection_info (st : ChromaManager) (name : String) : CollectionInfo :=
  if ¬ st.is_connected then
    { name := name, count := 0, metadata := [], dimensions := Option.none }
  else
    match st.client.getCollection name with
    | Except.error _ => { name := name, count := 0, metadata := [], dimensions := Option.none }
    | Except.ok coll =>
      match coll.count with
      | Except.error _ =>
        { name := name, count := 0, metadata := [], dimensions := Option.none }
      | Except.ok cnt =>
        { name := name, count := cnt, metadata := coll.metadata, dimensions := Option.none }

/-- `ChromaManager.create_collection`. -/
def ChromaManager.create_collection (st : ChromaManager) (name : String)
    (metadata : Option PyDict) : Bool :=
  if ¬ st.is_connected then false
  else
    match st.client.createCollection name (metadata.getD []) with
    | Except.ok _ => true
    | Except.error _ => false

/-- `ChromaManager.delete_collection`. -/
def ChromaManager.delete_collection (st : ChromaManager) (name : String) : Bool :=
  if ¬ st.is_connected then false
  else
    match st.client.deleteCollection name with
    | Except.ok _ => true
    | Except.error _ => false

/-- `ChromaManager.insert_documents`. -/
def ChromaManager.insert_documents (st : ChromaManager) (collection_name : String)
    (documents : List String) (metadatas : List PyDict) (ids : List String) : Bool :=
  if ¬ st.is_connected then false
  else
    match st.client.getCollection collection_name with
    | Except.error _ => false
    | Except.ok coll =>
      match st.embedder with
      | Option.some embed =>
        match embed documents with
        | Except.error _ => false
        | Except.ok embeddings =>
          match coll.add (Option.some embeddings) documents metadatas ids with
          | Except.ok _ => true
          | Except.error _ => false
      | Option.none =>
        match coll.add Option.none documents metadatas ids with
        | Except.ok _ => true
        | Except.error _ => false

/-- `ChromaManager.search`. -/
def ChromaManager.search (st : ChromaManager) (collection_name : String)
    (query_text : Option String) (query_embedding : Option (List ℚ)) (limit : Nat) :
    List SearchResult :=
  if ¬ st.is_connected then []
  else
    match st.client.getCollection collection_name with
    | Except.error _ => []
    | Except.ok coll =>
      match query_embedding with
      | Option.some qe =>
        match coll.query (Option.some [qe]) Option.none limit with
        | Except.error _ => []
        | Except.ok results =>
          match chroma_format_results results with
          | Except.ok out => out
          | Except.error _ => []
      | Option.none =>
        match query_text with
        | Option.some qt =>
          match coll.query Option.none (Option.some [qt]) limit with
          | Except.error _ => []
          | Except.ok results =>
            match chroma_format_results results with
            | Except.ok out => out
            | Except.error _ => []
        | Option.none => []

/-! ## Class attribute tables

Python resolves an attribute of a manager instance through the class
body and its base class; a name found in neither raises
`AttributeError`.  The lists below are transcribed from the class bodies
of `chroma.py`, `qdrant.py` and `manager.py`. -/

/-- The methods defined in the `ChromaManager` class body. -/
def chromaManagerMethods : List String :=
  ["db_type", "connect", "disconnect", "list_collections", "get_collection_info",
   "create_collection", "delete_collection", "insert_documents", "search",
   "_format_results"]

/-- The methods defined in the `QdrantManager` class body. -/
def qdrantManagerMethods : List String :=
  ["db_type", "connect", "disconnect", "list_collections", "get_collection_info",
   "create_collection", "delete_collection", "insert_documents", "search",
   "filtered_search", "_build_filter_from_format", "check_collection",
   "recreate_collection", "_format_results"]

/-- The methods and properties defined in the `VectorDBManager` base
class body (`manager.py`). -/
def vectorDBManagerMethods : List String :=
  ["connect", "disconnect", "list_collections", "get_collection_info",
   "create_collection", "delete_collection", "insert_documents", "search",
   "is_connected", "db_type", "search_by_text"]

/-- Attribute resolution for a `ChromaManager` instance. -/
def chromaRespondsTo (m : String) : Bool :=
  chromaManagerMethods.contains m || vectorDBManagerMethods.contains m

/-- Attribute resolution for a `QdrantManager` instance. -/
def qdrantRespondsTo (m : String) : Bool :=
  qdrantManagerMethods.contains m || vectorDBManagerMethods.contains m

/-! ## Claim-side definitions

These definitions follow the words of the specification (not the
source); each is compared against the corresponding embedded source
function by a theorem or refuted by a counterexample. -/

/-- The extraction as the specification states it: the first occurrence
of the end marker STRICTLY AFTER the start marker bounds the result. -/
def claimExtractBetweenMarkers (lines : List String) (start_marker end_marker : String) :
    List String :=
  match lines.findIdx? (fun l => l == start_marker) with
  | Option.none => []
  | Option.some si =>
    let after := lines.drop (si + 1)
    match after.findIdx? (fun l => l == end_marker) with
    | Option.none => after.map normalize
    | Option.some j => (after.take j).map normalize

/-- Amended-claim side of the filter translation: the effective value
list a field contributes (empty for a non-mapping config or a falsy
`values` entry; a truthy scalar is coerced to a one-element list). -/
def specFieldValues (cfg : PyVal) : List PyVal :=
  match cfg with
  | PyVal.dict entries =>
    let values := (pyDictGet entries "values").getD (PyVal.list [])
    if ¬ values.truthy then []
    else
      match values with
      | PyVal.list vs => vs
      | v => [v]
  | _ => []

/-- Amended-claim side: whether the field goes to the conjunctive
clause (the `must` entry defaults to true and is read by truthiness). -/
def specFieldIsMust (cfg : PyVal) : Bool :=
  match cfg with
  | PyVal.dict entries => ((pyDictGet entries "must").getD (PyVal.bool true)).truthy
  | _ => true

/-- Amended-claim side of the whole translation: per-value equality
conditions of the must-fields joined into the conjunctive clause, one
value-is-one-of condition per should-field in the disjunctive clause,
and no filter at all when no field contributed. -/
def spec_build_filter (filters : List (String × PyVal)) : Option QFilter :=
  let mustConds :=
    (filters.map (fun e =>
      if specFieldIsMust e.2 then
        (specFieldValues e.2).map
          (fun v => { key := "metadata." ++ e.1, mtch := QMatch.value v : QCondition })
      else [])).flatten
  let shouldConds :=
    (filters.map (fun e =>
      if ¬ specFieldIsMust e.2 && ¬ (specFieldValues e.2).isEmpty then
        [{ key := "metadata." ++ e.1, mtch := QMatch.anyOf (specFieldValues e.2) : QCondition }]
      else [])).flatten
  if mustConds.isEmpty && shouldConds.isEmpty then Option.none
  else Option.some { must := mustConds, should := shouldConds }

/-! ## Sample inputs for witnesses and counterexamples -/

/-- A well-formed document following the marker contract, with one
project row. -/
def sampleProjectDoc : Document :=
  { paragraphs := ["Jane Doe", "SENIOR DATA SCIENTIST", "Contact info"]
    tables :=
      [[["Education\nBSU\nLanguage proficiency\nEnglish (B2)\nDomains\nFinance\nCertificates",
         "Profile\nGreat engineer. Works hard."]],
       [["Header"],
        ["Demo Project\nShort summary",
         "Project roles\nDeveloper / Tester\nPeriod\n2020"]]] }

/-- The single project extracted from `sampleProjectDoc` by
`_parse_projects`. -/
def sampleProject : Project :=
  { project_name := "demo project"
    candidate_name := ""
    description := "short summary project roles developer / tester period 2020"
    roles := ["developer", "tester"]
    cv_id := "" }

/-- A one-hit Chroma reply with cosine distance `3/10`. -/
def chromaSampleResults : ChromaQueryResult :=
  { ids := [["id1"]]
    documents := Option.some [[PyVal.str "doc text"]]
    metadatas := Option.some [[PyVal.dict []]]
    distances := Option.some [[(3 : ℚ)/10]] }

/-- A one-point Qdrant reply with similarity score `2/5`. -/
def qdrantSampleResponse : QdrantQueryResponse :=
  [("points",
    [{ payload :=
         [("document", PyVal.str "doc text"), ("metadata", PyVal.dict []),
          ("text_id", PyVal.str "cv1_chunk#1")]
       score := (2 : ℚ)/5 }])]

/-- The single result `_format_results` produces from
`qdrantSampleResponse`. -/
def qdrantSampleResult : SearchResult :=
  { id := "cv1_chunk#1", document := PyVal.str "doc text", metadata := PyVal.dict [],
    score := (2 : ℚ)/5, distance := Option.some (1 - (2 : ℚ)/5) }

/-- The single result `_format_results` produces from
`chromaSampleResults`. -/
def chromaSampleResult : SearchResult :=
  { id := "id1", document := PyVal.str "doc text", metadata := PyVal.dict [],
    score := (3 : ℚ)/10, distance := Option.some ((3 : ℚ)/10) }

/-- A Qdrant client oracle whose every call fails (its replies are
irrelevant to the disconnected paths). -/
def qdrantDummyBackend : QdrantBackend :=
  { getCollections := Except.error "down"
    getCollection := fun _ => Except.error "down"
    countPoints := fun _ => Except.error "down"
    createCollection := fun _ _ => Except.error "down"
    deleteCollection := fun _ => Except.error "down"
    upsert := fun _ _ => Except.error "down"
    queryPoints := fun _ _ _ _ => Except.error "down" }

/-- A `QdrantManager` that never connected. -/
def qdrantDisconnected : QdrantManager :=
  { is_connected := false
    dimensions := 384
    embed := fun _ => Except.error "down"
    client := qdrantDummyBackend }

/-- A Chroma client oracle whose every call fails. -/
def chromaDummyBackend : ChromaBackend :=
  { listCollections := Except.error "down"
    getCollection := fun _ => Except.error "down"
    createCollection := fun _ _ => Except.error "down"
    deleteCollection := fun _ => Except.error "down" }

/-- A `ChromaManager` that never connected. -/
def chromaDisconnected : ChromaManager :=
  { is_connected := false
    embedder := Option.none
    client := chromaDummyBackend }

/-- The single chunk produced from `"Hello world."` with `CV_id` set. -/
def c9SampleChunk : Chunk :=
  { text := "Hello world. "
    id := "cv1_chunk#1"
    metadata :=
      [("CV_id", PyVal.str "cv1"), ("chunk_number", PyVal.int 1),
       ("chunks_overall", PyVal.int 1)] }

/-- The chunk list produced from `"Hello world."` with `CV_id` set. -/
def c9SampleChunks : List Chunk := [c9SampleChunk]

/-! # Theorems -/

/-! ## C7 — extract_between_markers -/

/-- C7 counterexample: with `lines = ["E", "S", "x"]`, start marker
`"S"` and end marker `"E"`, the end marker occurs only BEFORE the start
marker; the source slices `lines[2:0] = []`, while the claim ("first
subsequent occurrence of end_marker — or everything after the start
marker when absent") demands the normalized `["x"]`. -/
theorem c7_counterexample :
    extract_between_markers ["E", "S", "x"] "S" "E" = [] ∧
    claimExtractBetweenMarkers ["E", "S", "x"] "S" "E" = ["x"] ∧
    ([] : List String) ≠ ["x"] := by
  refine ⟨rfl, rfl, by simp⟩

/-- C7 (amended): `extract_between_markers` returns the empty list when
the start marker is absent; otherwise it returns, normalized, the lines
strictly after the first occurrence of the start marker and strictly
before the first occurrence of the end marker IN THE WHOLE LIST (end of
list when the end marker is absent) — in particular the result is empty
whenever the end marker first occurs at or before the start marker. -/
theorem c7_extract_between_markers_characterization (lines : List String)
    (start_marker end_marker : String) :
    extract_between_markers lines start_marker end_marker =
      match lines.findIdx? (fun l => l == start_marker) with
      | Option.none => []
      | Option.some si =>
        ((lines.take ((lines.findIdx? (fun l => l == end_marker)).getD lines.length)).drop
          (si + 1)).map normalize := by
  unfold extract_between_markers
  cases h1 : lines.findIdx? (fun l => l == start_marker) with
  | none => rfl
  | some si =>
    cases h2 : lines.findIdx? (fun l => l == end_marker) with
    | none => simp [pySliceList, List.take_length]
    | some ei => rfl

/-! ## C8 — clean_language_entry -/

/-- Soundness of the leftmost CEFR scan: a reported match points at a
letter of the class `[ABCabc]` occurring in the scanned list. -/
theorem cefrSearchAux_sound (cs : List Char) :
    ∀ (j i : Nat) (letter : Char) (ds : String),
      cefrSearchAux j cs = Option.some (i, letter, ds) →
      j ≤ i ∧ cs.get? (i - j) = Option.some letter ∧ isCefrLetter letter = true := by
  induction cs with
  | nil => intro j i l ds h; cases h
  | cons c cs ih =>
    intro j i l ds h
    unfold cefrSearchAux at h
    cases hm : cefrMatchAt (c :: cs) with
    | some p =>
      rw [hm] at h
      simp only [Option.some.injEq, Prod.mk.injEq] at h
      obtain ⟨hi, hl, _⟩ := h
      subst hi
      simp only [cefrMatchAt] at hm
      by_cases hc : isCefrLetter c = true
      · rw [if_pos hc] at hm
        cases hd : digitMatch (cs.dropWhile isDashOrSpace) with
        | none => rw [hd] at hm; cases hm
        | some ds2 =>
          rw [hd] at hm
          have hp : (c, ds2) = p := Option.some.inj hm
          refine ⟨Nat.le_refl _, ?_, ?_⟩
          · rw [Nat.sub_self, List.get?_cons_zero, ← hl, ← hp]
          · rw [← hl, ← hp]; exact hc
      · rw [if_neg hc] at hm; cases hm
    | none =>
      rw [hm] at h
      obtain ⟨hji, hget, hcl⟩ := ih (j + 1) i l ds h
      refine ⟨Nat.le_trans (Nat.le_succ _) hji, ?_, hcl⟩
      have : i - j = (i - (j + 1)) + 1 := by omega
      rw [this]
      simpa using hget

/-- C8 (amended): `clean_language_entry "no level here"` returns
`("no level here", None)` (no CEFR pattern and no digits), and whenever
the CEFR pattern `([ABCabc])[\-\s]*(\d{1,2})\b` matches, the
reconstructed level keeps the letter EXACTLY as it occurs in the input
(no upper-casing), and the returned text is the cleaned language-name
prefix (original case, non-alphanumerics replaced by spaces, whitespace
collapsed), a space, and that level; in particular
`clean_language_entry "English (B2)" = ("English B2", "B2")`. -/
theorem c8_clean_language_entry_level :
    clean_language_entry "no level here" = ("no level here", Option.none) ∧
    ∀ (text : String) (i : Nat) (letter : Char) (digits : String),
      cefrSearch text = Option.some (i, letter, digits) →
      text.data.get? i = Option.some letter ∧ isCefrLetter letter = true ∧
      clean_language_entry text =
        (collapseSpaces (cleanNonAlnum (pyStrip (String.mk (text.data.take i)))) ++ " " ++
          (String.mk [letter] ++ digits),
         Option.some (String.mk [letter] ++ digits)) := by
  constructor
  · decide
  · intro text i letter digits h
    have hs := cefrSearchAux_sound text.data 0 i letter digits h
    refine ⟨by simpa using hs.2.1, hs.2.2, ?_⟩
    unfold clean_language_entry
    rw [h]

/-- C8 witness: the pattern-found branch of the amended statement
applied to `"English (B2)"` (match at index 9, letter `B`,
digits `"2"`). -/
theorem c8_witness :
    clean_language_entry "English (B2)" = ("English B2", Option.some "B2") := by
  have h := c8_clean_language_entry_level.2 "English (B2)" 9 'B' "2" (by decide)
  exact h.2.2.trans (by decide)

/-- C8 counterexample: the claim predicts
`clean_language_entry "English (B2)" = ("english B2", "B2")`, but the
source never lowercases the prefix in this branch and returns
`("English B2", "B2")`. -/
theorem c8_counterexample :
    clean_language_entry "English (B2)" = ("English B2", Option.some "B2") ∧
    (("English B2", Option.some "B2") : String × Option String) ≠
      ("english B2", Option.some "B2") := by
  exact ⟨by decide, by decide⟩

/-! ## C2 — chunk overlap seeding -/

/-- Python `(-overlap)//10` is floor division: it equals the negated
CEILING of `overlap/10`. -/
theorem fdiv_neg_ten (overlap : Nat) :
    Int.fdiv (-(overlap : Int)) 10 = -(((overlap + 9) / 10 : Nat) : Int) := by
  cases overlap with
  | zero => decide
  | succ n =>
    have h1 : (-((n + 1 : Nat) : Int)) = Int.negSucc n := by
      rw [Int.negSucc_eq]
      push_cast
      ring
    rw [h1]
    have h2 : Int.fdiv (Int.negSucc n) 10 = Int.negSucc (n / 10) := rfl
    rw [h2, Int.negSucc_eq]
    have h3 : (n + 1 + 9) / 10 = n / 10 + 1 := by
      rw [show n + 1 + 9 = n + 10 by omega, Nat.add_div_right _ (by norm_num)]
    rw [h3]
    push_cast
    ring

/-- The overlap slice `words[-overlap//10:]`: the whole list for
`overlap = 0`, the last `ceil(overlap/10)` words otherwise. -/
theorem pySliceFrom_overlap {α : Type} (ws : List α) (overlap : Nat) :
    pySliceFrom ws (Int.fdiv (-(overlap : Int)) 10) =
      if overlap = 0 then ws else ws.drop (ws.length - (overlap + 9) / 10) := by
  rw [fdiv_neg_ten]
  cases overlap with
  | zero => simp [pySliceFrom]
  | succ n =>
    have hk : 1 ≤ (n + 1 + 9) / 10 := by
      rw [show n + 1 + 9 = n + 10 by omega, Nat.add_div_right _ (by norm_num)]
      omega
    unfold pySliceFrom
    rw [if_neg (by omega : ¬ (0 : Int) ≤ -(((n + 1 + 9) / 10 : Nat) : Int))]
    rw [neg_neg, Int.toNat_ofNat, if_neg (by omega : ¬ n + 1 = 0)]

/-- C2 (amended): when appending the next sentence would make the
non-empty buffer exceed `chunk_size`, the buffer is flushed and the next
buffer is seeded with the last `ceil(overlap/10)` space-separated words
of the flushed buffer when `overlap >= 1` — and with ALL its words when
`overlap = 0` (the slice index `-overlap//10` is the negated ceiling,
and `[-0:]` means "from the start"); for `1 <= overlap < 10` the seed is
therefore ONE word, not zero. -/
theorem c2_flush_seed (chunk_size overlap : Nat) (texts : List String) (cur s : String)
    (hne : cur ≠ "") (hover : cur.length + s.length > chunk_size) :
    chunkStep chunk_size overlap (texts, cur) s =
      Except.ok (texts ++ [cur],
        (String.intercalate " "
           (if overlap = 0 then pySplitWS cur
            else (pySplitWS cur).drop ((pySplitWS cur).length - (overlap + 9) / 10)) ++ " ")
          ++ s ++ ". ") := by
  unfold chunkStep
  simp only []
  rw [if_pos hover, if_pos hne, pySliceFrom_overlap]

/-- C2 witness: the amended statement at `chunk_size = 10`,
`overlap = 5`, buffer `"aaa bbb. "` and next sentence `"ccc ddd"` — the
seed is the single word `"bbb."`. -/
theorem c2_flush_seed_witness :
    chunkStep 10 5 ([], "aaa bbb. ") "ccc ddd" =
      Except.ok (["aaa bbb. "], "bbb. ccc ddd. ") := by
  have h := c2_flush_seed 10 5 [] "aaa bbb. " "ccc ddd" (by decide) (by decide)
  exact h.trans rfl

/-- C2 counterexample: with `overlap = 5 < 10` the claim predicts a
zero-word seed (the next buffer `"ccc ddd. "`, or `" ccc ddd. "` with
the literal empty join); the source seeds the single word `"bbb."` and
the whole run returns `["aaa bbb. ", "bbb. ccc ddd. "]`. -/
theorem c2_counterexample :
    chunk_texts 10 5 "aaa bbb. ccc ddd." = Except.ok ["aaa bbb. ", "bbb. ccc ddd. "] ∧
    ("bbb. ccc ddd. " ≠ "ccc ddd. " ∧ "bbb. ccc ddd. " ≠ " ccc ddd. ") := by
  exact ⟨rfl, by decide, by decide⟩

/-! ## C4 — Qdrant filter translation -/

/-- A truthy `values` entry always yields a non-empty effective list
(the scalar coercion produces a singleton). -/
theorem truthy_values_nonempty (values : PyVal) (hv : values.truthy = true) :
    (match values with | PyVal.list vs => vs | v => [v]).isEmpty = false := by
  cases values with
  | list xs => simpa [PyVal.truthy] using hv
  | str s => rfl
  | int n => rfl
  | bool b => rfl
  | dict es => rfl
  | none => rfl

/-- The accumulation loop appends exactly the per-field contributions of
the claim-side description. -/
theorem buildFilterLoop_spec (filters : List (String × PyVal)) :
    ∀ (m s : List QCondition),
      buildFilterLoop filters m s =
        (m ++ (filters.map (fun e =>
            if specFieldIsMust e.2 then
              (specFieldValues e.2).map
                (fun v => { key := "metadata." ++ e.1, mtch := QMatch.value v : QCondition })
            else [])).flatten,
         s ++ (filters.map (fun e =>
            if ¬ specFieldIsMust e.2 && ¬ (specFieldValues e.2).isEmpty then
              [{ key := "metadata." ++ e.1,
                 mtch := QMatch.anyOf (specFieldValues e.2) : QCondition }]
            else [])).flatten) := by
  induction filters with
  | nil => intro m s; simp [buildFilterLoop]
  | cons e rest ih =>
    intro m s
    obtain ⟨field_name, filter_config⟩ := e
    cases filter_config with
    | dict cfg =>
      by_cases hv : ((pyDictGet cfg "values").getD (PyVal.list [])).truthy = true
      · have hsv : specFieldValues (PyVal.dict cfg) =
            match (pyDictGet cfg "values").getD (PyVal.list []) with
            | PyVal.list vs => vs
            | v => [v] := by
          simp [specFieldValues, hv]
        have hne : (specFieldValues (PyVal.dict cfg)).isEmpty = false := by
          rw [hsv]; exact truthy_values_nonempty _ hv
        by_cases hmust : ((pyDictGet cfg "must").getD (PyVal.bool true)).truthy = true
        · have hsm : specFieldIsMust (PyVal.dict cfg) = true := hmust
          simp only [buildFilterLoop, List.map_cons, List.flatten_cons]
          rw [if_neg (by simp [hv]), if_pos hmust, ih]
          rw [if_pos hsm, hsv]
          simp [hsm, List.append_assoc]
        · have hsm : specFieldIsMust (PyVal.dict cfg) = false := by
            simpa [specFieldIsMust] using hmust
          simp only [buildFilterLoop, List.map_cons, List.flatten_cons]
          rw [if_neg (by simp [hv]), if_neg hmust, ih]
          rw [if_neg (by simp [hsm]), if_pos (by simp [hsm, hne]), hsv]
          simp [hsm, hne, List.append_assoc]
      · have hvf : ((pyDictGet cfg "values").getD (PyVal.list [])).truthy = false := by
          simpa using hv
        have hsv : specFieldValues (PyVal.dict cfg) = [] := by
          simp [specFieldValues, hvf]
        simp only [buildFilterLoop, List.map_cons, List.flatten_cons]
        rw [if_pos (by simp [hvf]), ih]
        rw [hsv]
        simp
    | str v =>
      simp only [buildFilterLoop, List.map_cons, List.flatten_cons]
      rw [ih]
      simp [specFieldValues, specFieldIsMust]
    | int v =>
      simp only [buildFilterLoop, List.map_cons, List.flatten_cons]
      rw [ih]
      simp [specFieldValues, specFieldIsMust]
    | bool v =>
      simp only [buildFilterLoop, List.map_cons, List.flatten_cons]
      rw [ih]
      simp [specFieldValues, specFieldIsMust]
    | list vs =>
      simp only [buildFilterLoop, List.map_cons, List.flatten_cons]
      rw [ih]
      simp [specFieldValues, specFieldIsMust]
    | none =>
      simp only [buildFilterLoop, List.map_cons, List.flatten_cons]
      rw [ih]
      simp [specFieldValues, specFieldIsMust]

/-- C4 (amended): the translator agrees with the claim-side description
everywhere — one equality condition per value of each truthy must-field
in the conjunctive clause, one value-is-one-of condition per truthy
should-field in the disjunctive clause, non-mapping configs and FALSY
`values` entries (the empty list, but also a falsy scalar such as `0`,
`false` or `""`) skipped, truthy scalars coerced to one-element lists,
and no filter when nothing contributed. -/
theorem c4_filter_translation (filters : List (String × PyVal)) :
    _build_filter_from_format filters = spec_build_filter filters := by
  unfold _build_filter_from_format spec_build_filter
  rw [buildFilterLoop_spec filters [] []]
  simp only [List.nil_append]

/-- C4 counterexample: a scalar `values` entry `0` is FALSY, so the
field is skipped and no filter is built — the claim instead demands its
coercion to `[0]` and one must-condition on it. -/
theorem c4_counterexample :
    _build_filter_from_format
      [("level", PyVal.dict [("must", PyVal.bool true), ("values", PyVal.int 0)])] =
      Option.none ∧
    (Option.none ≠
      Option.some
        { must := [{ key := "metadata.level", mtch := QMatch.value (PyVal.int 0) }],
          should := ([] : List QCondition) : QFilter }) := by
  exact ⟨rfl, by simp⟩

/-! ## C3 — score and distance conventions -/

/-- Reduction of an `Except` bind on a success value. -/
theorem exceptBindOk {ε α β : Type} (a : α) (f : α → Except ε β) :
    (Except.ok a >>= f) = f a := rfl

/-- Reduction of an `Except` bind on an error value. -/
theorem exceptBindErr {ε α β : Type} (e : ε) (f : α → Except ε β) :
    ((Except.error e : Except ε α) >>= f) = Except.error e := rfl

/-- Every element the Qdrant formatting loop appends carries
`distance = 1 - score`. -/
theorem qdrant_foldlM_distance (results : QdrantQueryResponse) :
    ∀ (acc out : List SearchResult),
      (∀ r ∈ acc, r.distance = Option.some (1 - r.score)) →
      List.foldlM qdrantFormatStep acc results = Except.ok out →
      ∀ r ∈ out, r.distance = Option.some (1 - r.score) := by
  induction results with
  | nil =>
    intro acc out hacc h
    simp only [List.foldlM_nil] at h
    have heq : acc = out := Except.ok.inj h
    subst heq
    exact hacc
  | cons hd tl ih =>
    intro acc out hacc h
    rw [List.foldlM_cons] at h
    cases hstep : qdrantFormatStep acc hd with
    | error e =>
      rw [hstep] at h
      rw [exceptBindErr] at h
      exact Except.noConfusion h
    | ok acc2 =>
      rw [hstep] at h
      rw [exceptBindOk] at h
      refine ih acc2 out ?_ h
      unfold qdrantFormatStep at hstep
      cases hh : hd.2.head? with
      | none => rw [hh] at hstep; exact Except.noConfusion hstep
      | some pt =>
        rw [hh] at hstep
        have heq := Except.ok.inj hstep
        subst heq
        intro r hr
        rcases List.mem_append.mp hr with hin | hnew
        · exact hacc r hin
        · rw [List.mem_singleton.mp hnew]

/-- The pair assigned to `(score, distance)` by the Chroma loop: either
both fields hold the raw distance, or there were no distances and the
pair is `(0, None)`. -/
theorem chromaScoreDist_shape (results : ChromaQueryResult) (i : Nat) (sd : ℚ × Option ℚ)
    (h : chromaScoreDist results i = Except.ok sd) :
    sd.2 = Option.some sd.1 ∨ (sd.2 = Option.none ∧ sd.1 = 0) := by
  unfold chromaScoreDist at h
  cases hd : results.distances with
  | none =>
    rw [hd] at h
    dsimp only [] at h
    have heq := Except.ok.inj h
    subst heq
    exact Or.inr ⟨rfl, rfl⟩
  | some dl =>
    rw [hd] at h
    dsimp only [] at h
    by_cases he : dl.isEmpty
    · rw [if_pos he] at h
      have heq := Except.ok.inj h
      subst heq
      exact Or.inr ⟨rfl, rfl⟩
    · rw [if_neg he] at h
      cases h0 : pyListGet dl 0 with
      | error e => rw [h0, exceptBindErr] at h; exact Except.noConfusion h
      | ok r0 =>
        rw [h0, exceptBindOk] at h
        cases h1 : pyListGet r0 i with
        | error e => rw [h1, exceptBindErr] at h; exact Except.noConfusion h
        | ok d =>
          rw [h1, exceptBindOk] at h
          have heq := Except.ok.inj h
          subst heq
          exact Or.inl rfl

/-- Every element the Chroma formatting loop appends has
`distance = score` (raw distance in both) or no distance and score 0. -/
theorem chromaFormatStep_shape (results : ChromaQueryResult) (docs0 : List PyVal)
    (acc : List SearchResult) (i : Nat) (acc2 : List SearchResult)
    (h : chromaFormatStep results docs0 acc i = Except.ok acc2) :
    ∃ sr : SearchResult, acc2 = acc ++ [sr] ∧
      (sr.distance = Option.some sr.score ∨
        (sr.distance = Option.none ∧ sr.score = 0)) := by
  unfold chromaFormatStep at h
  cases h1 : pyListGet results.ids 0 with
  | error e => rw [h1, exceptBindErr] at h; exact Except.noConfusion h
  | ok idsRow =>
  rw [h1, exceptBindOk] at h
  cases h2 : pyListGet idsRow i with
  | error e => rw [h2, exceptBindErr] at h; exact Except.noConfusion h
  | ok idv =>
  rw [h2, exceptBindOk] at h
  cases h3 : pyListGet docs0 i with
  | error e => rw [h3, exceptBindErr] at h; exact Except.noConfusion h
  | ok docv =>
  rw [h3, exceptBindOk] at h
  cases h4 : chromaMetadataAt results i with
  | error e => rw [h4, exceptBindErr] at h; exact Except.noConfusion h
  | ok mdv =>
  rw [h4, exceptBindOk] at h
  cases h5 : chromaScoreDist results i with
  | error e => rw [h5, exceptBindErr] at h; exact Except.noConfusion h
  | ok sd =>
  rw [h5, exceptBindOk] at h
  have heq := Except.ok.inj h
  subst heq
  exact ⟨_, rfl, chromaScoreDist_shape results i sd h5⟩

/-- Fold version of the previous lemma. -/
theorem chroma_foldlM_distance (results : ChromaQueryResult) (docs0 : List PyVal)
    (idxs : List Nat) :
    ∀ (acc out : List SearchResult),
      (∀ r ∈ acc, r.distance = Option.some r.score ∨
        (r.distance = Option.none ∧ r.score = 0)) →
      List.foldlM (chromaFormatStep results docs0) acc idxs = Except.ok out →
      ∀ r ∈ out, r.distance = Option.some r.score ∨
        (r.distance = Option.none ∧ r.score = 0) := by
  induction idxs with
  | nil =>
    intro acc out hacc h
    simp only [List.foldlM_nil] at h
    have heq : acc = out := Except.ok.inj h
    subst heq
    exact hacc
  | cons hd tl ih =>
    intro acc out hacc h
    rw [List.foldlM_cons] at h
    cases hstep : chromaFormatStep results docs0 acc hd with
    | error e => rw [hstep, exceptBindErr] at h; exact Except.noConfusion h
    | ok acc2 =>
      rw [hstep, exceptBindOk] at h
      refine ih acc2 out ?_ h
      obtain ⟨sr, heq, hsr⟩ := chromaFormatStep_shape results docs0 acc hd acc2 hstep
      subst heq
      intro r hr
      rcases List.mem_append.mp hr with hin | hnew
      · exact hacc r hin
      · rw [List.mem_singleton.mp hnew]; exact hsr

/-- C3 (amended): for the Qdrant backend every formatted result carries
`distance = 1 - score` (score is the backend similarity, higher is
better); for the Chroma backend score is the backend's RAW cosine
distance (lower is better) and `distance` equals `score` when distances
are returned (otherwise score is `0` and distance is absent) — so the
claimed cross-backend convention fails for Chroma. -/
theorem c3_score_distance (qres : QdrantQueryResponse) (cres : ChromaQueryResult)
    (qout cout : List SearchResult)
    (hq : qdrant_format_results qres = Except.ok qout)
    (hc : chroma_format_results cres = Except.ok cout) :
    (∀ r ∈ qout, r.distance = Option.some (1 - r.score)) ∧
    (∀ r ∈ cout, r.distance = Option.some r.score ∨
      (r.distance = Option.none ∧ r.score = 0)) := by
  constructor
  · exact qdrant_foldlM_distance qres [] qout (by intro r hr; cases hr) hq
  · unfold chroma_format_results at hc
    cases hdocs : cres.documents with
    | none =>
      rw [hdocs] at hc
      dsimp only [] at hc
      have heq := Except.ok.inj hc
      intro r hr
      rw [← heq] at hr
      cases hr
    | some docs =>
      rw [hdocs] at hc
      dsimp only [] at hc
      cases docs with
      | nil =>
        have heq := Except.ok.inj hc
        intro r hr
        rw [← heq] at hr
        cases hr
      | cons docs0 rest =>
        dsimp only [] at hc
        by_cases hne : docs0.isEmpty
        · rw [if_pos hne] at hc
          have heq := Except.ok.inj hc
          intro r hr
          rw [← heq] at hr
          cases hr
        · rw [if_neg hne] at hc
          exact chroma_foldlM_distance cres docs0 (List.range docs0.length) [] cout
            (by intro r hr; cases hr) hc

/-- C3 witness: the amended statement applied to the one-point sample
replies (Qdrant similarity `2/5` gives distance `3/5`; Chroma raw
distance `3/10` is copied into both fields). -/
theorem c3_witness :
    qdrantSampleResult.distance = Option.some (1 - qdrantSampleResult.score) ∧
    (chromaSampleResult.distance = Option.some chromaSampleResult.score ∨
      (chromaSampleResult.distance = Option.none ∧ chromaSampleResult.score = 0)) := by
  have h := c3_score_distance qdrantSampleResponse chromaSampleResults
    [qdrantSampleResult] [chromaSampleResult] rfl rfl
  exact ⟨h.1 qdrantSampleResult (List.mem_singleton.mpr rfl),
         h.2 chromaSampleResult (List.mem_singleton.mpr rfl)⟩

/-- C3 counterexample: the Chroma backend copies the raw distance into
`score` and sets `distance` to the SAME value, so `distance = 1 - score`
fails (`3/10 ≠ 1 - 3/10`), and `score` is not a higher-is-better
similarity. -/
theorem c3_counterexample :
    chroma_format_results chromaSampleResults =
      Except.ok [{ id := "id1", document := PyVal.str "doc text",
                   metadata := PyVal.dict [], score := (3 : ℚ)/10,
                   distance := Option.some ((3 : ℚ)/10) }] ∧
    ¬ ((3 : ℚ)/10 = 1 - (3 : ℚ)/10) := by
  exact ⟨rfl, by norm_num⟩

/-! ## C5 — disconnected managers -/

/-- C5 (amended): with `is_connected` false, every operation the two
backends actually define — `list_collections`, `get_collection_info`,
`create_collection`, `delete_collection`, `insert_documents`, `search`,
and for the Qdrant backend also `filtered_search` — returns its safe
default without consulting the client (the statement holds for EVERY
client oracle and argument).  `ChromaManager` defines no
`filtered_search`, so that operation cannot be called on it at all. -/
theorem c5_disconnected_safe_defaults (stq : QdrantManager) (stc : ChromaManager)
    (hq : stq.is_connected = false) (hc : stc.is_connected = false) :
    (stq.list_collections = []) ∧
    (∀ name, stq.get_collection_info name =
      { name := name, count := 0, metadata := [], dimensions := Option.none }) ∧
    (∀ name md, stq.create_collection name md = false) ∧
    (∀ name, stq.delete_collection name = false) ∧
    (∀ coll docs mds ids, stq.insert_documents coll docs mds ids = false) ∧
    (∀ coll qt qe lim, stq.search coll qt qe lim = []) ∧
    (∀ coll q f, stq.filtered_search coll q f = []) ∧
    (stc.list_collections = []) ∧
    (∀ name, stc.get_collection_info name =
      { name := name, count := 0, metadata := [], dimensions := Option.none }) ∧
    (∀ name md, stc.create_collection name md = false) ∧
    (∀ name, stc.delete_collection name = false) ∧
    (∀ coll docs mds ids, stc.insert_documents coll docs mds ids = false) ∧
    (∀ coll qt qe lim, stc.search coll qt qe lim = []) := by
  refine ⟨?_, ?_, ?_, ?_, ?_, ?_, ?_, ?_, ?_, ?_, ?_, ?_, ?_⟩
  · simp [QdrantManager.list_collections, hq]
  · intro name; simp [QdrantManager.get_collection_info, hq]
  · intro name md; simp [QdrantManager.create_collection, hq]
  · intro name; simp [QdrantManager.delete_collection, hq]
  · intro coll docs mds ids; simp [QdrantManager.insert_documents, hq]
  · intro coll qt qe lim; simp [QdrantManager.search, hq]
  · intro coll q f; simp [QdrantManager.filtered_search, hq]
  · simp [ChromaManager.list_collections, hc]
  · intro name; simp [ChromaManager.get_collection_info, hc]
  · intro name md; simp [ChromaManager.create_collection, hc]
  · intro name; simp [ChromaManager.delete_collection, hc]
  · intro coll docs mds ids; simp [ChromaManager.insert_documents, hc]
  · intro coll qt qe lim; simp [ChromaManager.search, hc]

/-- C5 witness: the amended statement applied to concrete disconnected
managers whose client oracles fail on every call, at concrete
arguments. -/
theorem c5_witness :
    QdrantManager.list_collections qdrantDisconnected = [] ∧
    QdrantManager.get_collection_info qdrantDisconnected "cvs" =
      { name := "cvs", count := 0, metadata := [], dimensions := Option.none } ∧
    QdrantManager.insert_documents qdrantDisconnected "cvs" ["d"] [[]] ["i"] = false ∧
    QdrantManager.search qdrantDisconnected "cvs" Option.none Option.none 10 = [] ∧
    QdrantManager.filtered_search qdrantDisconnected "cvs" "q" [] = [] ∧
    ChromaManager.list_collections chromaDisconnected = [] ∧
    ChromaManager.insert_documents chromaDisconnected "cvs" ["d"] [[]] ["i"] = false ∧
    ChromaManager.search chromaDisconnected "cvs" Option.none Option.none 10 = [] := by
  obtain ⟨h1, h2, h3, h4, h5, h6, h7, h8, h9, h10, h11, h12, h13⟩ :=
    c5_disconnected_safe_defaults qdrantDisconnected chromaDisconnected rfl rfl
  exact ⟨h1, h2 "cvs", h5 "cvs" ["d"] [[]] ["i"], h6 "cvs" Option.none Option.none 10,
    h7 "cvs" "q" [], h8, h12 "cvs" ["d"] [[]] ["i"], h13 "cvs" Option.none Option.none 10⟩

/-- C5 counterexample: the claim enumerates `filtered_search` among the
public operations of BOTH backends, but the `ChromaManager` class (and
its base class) defines no attribute `filtered_search`: calling it
raises `AttributeError` instead of returning a safe default — only the
Qdrant backend has it. -/
theorem c5_counterexample :
    chromaRespondsTo "filtered_search" = false ∧
    qdrantRespondsTo "filtered_search" = true ∧
    chromaRespondsTo "search" = true := by
  exact ⟨by decide, by decide, by decide⟩

/-! ## C6 — project cv_id ownership -/

/-- A successfully parsed project row carries exactly the `cv_id` the
caller passed. -/
theorem parse_project_row_cv_id (cells : List String) (cv_id candidate_name : String)
    (p : Project) (h : parse_project_row cells cv_id candidate_name = Except.ok p) :
    p.cv_id = cv_id := by
  unfold parse_project_row at h
  split at h
  · exact Except.noConfusion h
  · have heq := Except.ok.inj h
    rw [← heq]

/-- The row fold of `_parse_projects` only ever appends projects with
`cv_id = ""` (the call site passes the default). -/
theorem parse_projects_fold_cv_id (rows : List (List String)) :
    ∀ (acc : List Project), (∀ q ∈ acc, q.cv_id = "") →
      ∀ p ∈ rows.foldl
        (fun projects row =>
          match parse_project_row row "" "" with
          | Except.ok pr => projects ++ [pr]
          | Except.error _ => projects)
        acc, p.cv_id = "" := by
  induction rows with
  | nil => intro acc hacc p hp; exact hacc p hp
  | cons row rest ih =>
    intro acc hacc p hp
    rw [List.foldl_cons] at hp
    cases hrow : parse_project_row row "" "" with
    | ok pr =>
      rw [hrow] at hp
      refine ih (acc ++ [pr]) ?_ p hp
      intro q hq
      rcases List.mem_append.mp hq with hin | hnew
      · exact hacc q hin
      · rw [List.mem_singleton.mp hnew]
        exact parse_project_row_cv_id row "" "" pr hrow
    | error e =>
      rw [hrow] at hp
      exact ih acc hacc p hp

/-- C6: every project produced by `_parse_projects` has `cv_id = ""` —
the call site `parse_project_row(row.cells)` never passes the document
`cv_id`, so no project references its owning CV (whose id would be
`name_timestamp`). -/
theorem c6_projects_cv_id_empty (doc : Document) (p : Project)
    (hp : p ∈ _parse_projects doc) : p.cv_id = "" := by
  unfold _parse_projects at hp
  split at hp
  · cases hp
  · exact parse_projects_fold_cv_id _ [] (by intro q hq; cases hq) p hp

/-- C6 witness: the sample document yields one project and its `cv_id`
is the empty string. -/
theorem c6_witness :
    sampleProject ∈ _parse_projects sampleProjectDoc ∧ sampleProject.cv_id = "" := by
  have hmem : sampleProject ∈ _parse_projects sampleProjectDoc := by
    rw [show _parse_projects sampleProjectDoc = [sampleProject] from rfl]
    exact List.mem_singleton.mpr rfl
  exact ⟨hmem, c6_projects_cv_id_empty sampleProjectDoc sampleProject hmem⟩

/-! ## C9 — chunk numbering invariants -/

/-- Looking up a key that a dict-set just wrote yields the new value. -/
theorem pyDictGet_set_self (d : PyDict) (k : String) (v : PyVal) :
    pyDictGet (pyDictSet d k v) k = Option.some v := by
  induction d with
  | nil => simp [pyDictSet, pyDictGet]
  | cons e d ih =>
    obtain ⟨k1, v1⟩ := e
    by_cases h1 : (k1 == k) = true
    · unfold pyDictSet
      rw [List.find?_cons_of_pos _ (by simpa using h1)]
      simp only [Option.isSome_some, if_pos]
      unfold pyDictGet
      rw [List.map_cons]
      simp only [h1, if_pos]
      rw [List.find?_cons_of_pos _ (by simp)]
      rfl
    · have hstep : pyDictSet ((k1, v1) :: d) k v = (k1, v1) :: pyDictSet d k v := by
        unfold pyDictSet
        rw [List.find?_cons_of_neg _ (by simpa using h1)]
        by_cases hd : (d.find? (fun e => e.1 == k)).isSome
        · rw [if_pos hd, if_pos hd, List.map_cons]
          simp [h1]
        · rw [if_neg hd, if_neg hd]
          rfl
      rw [hstep]
      unfold pyDictGet
      rw [List.find?_cons_of_neg _ (by simpa using h1)]
      exact ih

/-- The entry-rewriting map of a dict-set on key `k2` does not change
which entry a lookup of a DIFFERENT key `k` finds. -/
theorem find?_map_set_other (d : PyDict) (k k2 : String) (v : PyVal)
    (hne : (k2 == k) = false) :
    List.find? (fun e => e.1 == k)
        (d.map (fun e => if e.1 == k2 then (k2, v) else e)) =
      List.find? (fun e => e.1 == k) d := by
  induction d with
  | nil => rfl
  | cons e d ih =>
    obtain ⟨k1, v1⟩ := e
    rw [List.map_cons]
    by_cases pe : (k1 == k) = true
    · have hke : k1 = k := by simpa using pe
      have h12 : (k1 == k2) = false := by
        cases hbe : (k1 == k2) with
        | false => rfl
        | true =>
          have hx : k1 = k2 := by simpa using hbe
          have h2 : k2 = k := hx ▸ hke
          rw [h2] at hne
          simp at hne
      rw [show (if (k1, v1).1 == k2 then (k2, v) else (k1, v1)) = (k1, v1) by
        simp [h12]]
      rw [List.find?_cons_of_pos _ (by simpa using pe),
        List.find?_cons_of_pos _ (by simpa using pe)]
    · by_cases p2 : (k1 == k2) = true
      · rw [if_pos (by simpa using p2)]
        rw [List.find?_cons_of_neg _ (by simpa using hne),
          List.find?_cons_of_neg _ (by simpa using pe)]
        exact ih
      · rw [if_neg (by simpa using p2)]
        rw [List.find?_cons_of_neg _ (by simpa using pe),
          List.find?_cons_of_neg _ (by simpa using pe)]
        exact ih

/-- A dict-set on one key leaves lookups of other keys unchanged. -/
theorem pyDictGet_set_other (d : PyDict) (k k2 : String) (v : PyVal)
    (hne : (k2 == k) = false) :
    pyDictGet (pyDictSet d k2 v) k = pyDictGet d k := by
  unfold pyDictSet
  by_cases hd : ((d.find? (fun e => e.1 == k2)).isSome) = true
  · rw [if_pos hd]
    unfold pyDictGet
    rw [find?_map_set_other d k k2 v hne]
  · rw [if_neg hd]
    unfold pyDictGet
    rw [List.find?_append]
    have : List.find? (fun e => e.1 == k) [(k2, v)] = Option.none := by
      simp [List.find?, hne]
    rw [this]
    simp

/-- `pyEnumFrom` preserves length. -/
theorem pyEnumFrom_length {α : Type} (l : List α) :
    ∀ n : Nat, (pyEnumFrom n l).length = l.length := by
  induction l with
  | nil => intro n; rfl
  | cons a l ih => intro n; simp [pyEnumFrom, ih]

/-- Element access of `pyEnumFrom`. -/
theorem pyEnumFrom_get? {α : Type} (l : List α) :
    ∀ (n k : Nat),
      (pyEnumFrom n l).get? k = (l.get? k).map (fun a => (n + k, a)) := by
  induction l with
  | nil => intro n k; cases k <;> rfl
  | cons a l ih =>
    intro n k
    cases k with
    | zero => simp [pyEnumFrom]
    | succ k =>
      simp only [pyEnumFrom, List.get?]
      rw [ih (n + 1) k]
      have : n + 1 + k = n + (k + 1) := by omega
      rw [this]

/-- C9: every chunk produced by `chunk_by_sentences` has sequential
1-based `chunk_number`, `chunks_overall` equal to the total count,
`1 <= chunk_number <= chunks_overall`, and an id following
`\x7bsource_id\x7d_chunk#\x7bn\x7d` with `n` the chunk number. -/
theorem c9_chunk_invariants (chunk_size overlap : Nat) (text : String) (meta : PyDict)
    (freshUuids : Nat → String) (out : List Chunk) (k : Nat) (c : Chunk)
    (hout : chunk_by_sentences chunk_size overlap text meta freshUuids = Except.ok out)
    (hc : out.get? k = Option.some c) :
    c.id = cvSourceId meta (freshUuids k) ++ "_chunk#" ++ toString (k + 1) ∧
    pyDictGet c.metadata "chunk_number" = Option.some (PyVal.int ((k : Int) + 1)) ∧
    pyDictGet c.metadata "chunks_overall" =
      Option.some (PyVal.int (out.length : Int)) ∧
    1 ≤ k + 1 ∧ k + 1 ≤ out.length := by
  unfold chunk_by_sentences at hout
  cases h1 : chunk_texts chunk_size overlap text with
  | error e => rw [h1, exceptBindErr] at hout; exact Except.noConfusion hout
  | ok texts =>
    rw [h1, exceptBindOk] at hout
    have hout2 := Except.ok.inj hout
    subst hout2
    rw [List.get?_map, pyEnumFrom_get?] at hc
    cases ht : texts.get? k with
    | none => rw [ht] at hc; cases hc
    | some t =>
      rw [ht] at hc
      have hc2 := Option.some.inj hc
      have hk : k < texts.length := (List.get?_eq_some.mp ht).1
      have hlen : (List.map
          (fun p => Chunk.from_dict p.2
            (cvSourceId meta (freshUuids p.1) ++ "_chunk#" ++ toString (p.1 + 1))
            (p.1 + 1 : Int) (texts.length : Int) meta)
          (pyEnumFrom 0 texts)).length = texts.length := by
        rw [List.length_map, pyEnumFrom_length]
      have hc3 : Chunk.from_dict t
          (cvSourceId meta (freshUuids (0 + k)) ++ "_chunk#" ++ toString (0 + k + 1))
          (((0 + k : Nat) : Int) + 1) (texts.length : Int) meta = c := hc2
      rw [← hc3]
      refine ⟨?_, ?_, ?_, by omega, by rw [hlen]; omega⟩
      · rw [show ∀ a b c d e, (Chunk.from_dict a b c d e).id = b from fun _ _ _ _ _ => rfl]
        simp
      · rw [show ∀ a b c d e, (Chunk.from_dict a b c d e).metadata =
            pyDictSet (pyDictSet e "chunk_number" (PyVal.int c)) "chunks_overall"
              (PyVal.int d) from fun _ _ _ _ _ => rfl]
        rw [pyDictGet_set_other _ _ _ _ (by decide), pyDictGet_set_self]
        simp
      · rw [show ∀ a b c d e, (Chunk.from_dict a b c d e).metadata =
            pyDictSet (pyDictSet e "chunk_number" (PyVal.int c)) "chunks_overall"
              (PyVal.int d) from fun _ _ _ _ _ => rfl]
        rw [pyDictGet_set_self, hlen]

/-- C9 witness: the invariants instantiated on the single chunk produced
from `"Hello world."` with `CV_id = "cv1"`. -/
theorem c9_witness :
    c9SampleChunk.id =
      cvSourceId [("CV_id", PyVal.str "cv1")] "u" ++ "_chunk#" ++ toString (0 + 1) ∧
    pyDictGet c9SampleChunk.metadata "chunk_number" =
      Option.some (PyVal.int ((0 : Int) + 1)) ∧
    pyDictGet c9SampleChunk.metadata "chunks_overall" =
      Option.some (PyVal.int (c9SampleChunks.length : Int)) ∧
    1 ≤ 0 + 1 ∧ 0 + 1 ≤ c9SampleChunks.length :=
  c9_chunk_invariants 1000 100 "Hello world." [("CV_id", PyVal.str "cv1")]
    (fun _ => "u") c9SampleChunks 0 c9SampleChunk rfl rfl

/-! ## C10 — chunker determinism -/

/-- C10 (amended): two runs of `chunk_by_sentences` on identical input
text and metadata always produce the same chunk TEXTS and the same
chunk METADATA; the ids (and hence the whole output) also coincide
whenever the metadata contains a `CV_id` key.  When it does not, each
chunk id embeds the `uuid4()` drawn for that chunk in that run — the
`u1`/`u2` streams of the embedding — and differs between runs. -/
theorem c10_determinism (chunk_size overlap : Nat) (text : String) (meta : PyDict)
    (u1 u2 : Nat → String) :
    ((chunk_by_sentences chunk_size overlap text meta u1).map
        (fun cs => cs.map Chunk.text) =
      (chunk_by_sentences chunk_size overlap text meta u2).map
        (fun cs => cs.map Chunk.text)) ∧
    ((chunk_by_sentences chunk_size overlap text meta u1).map
        (fun cs => cs.map Chunk.metadata) =
      (chunk_by_sentences chunk_size overlap text meta u2).map
        (fun cs => cs.map Chunk.metadata)) ∧
    (pyDictGet meta "CV_id" ≠ Option.none →
      chunk_by_sentences chunk_size overlap text meta u1 =
        chunk_by_sentences chunk_size overlap text meta u2) := by
  unfold chunk_by_sentences
  cases h1 : chunk_texts chunk_size overlap text with
  | error e =>
    rw [exceptBindErr, exceptBindErr]
    exact ⟨rfl, rfl, fun _ => rfl⟩
  | ok texts =>
    rw [exceptBindOk, exceptBindOk]
    refine ⟨?_, ?_, ?_⟩
    · show Except.ok (((pyEnumFrom 0 texts).map _).map Chunk.text) =
        Except.ok (((pyEnumFrom 0 texts).map _).map Chunk.text)
      rw [List.map_map, List.map_map]
      rfl
    · show Except.ok (((pyEnumFrom 0 texts).map _).map Chunk.metadata) =
        Except.ok (((pyEnumFrom 0 texts).map _).map Chunk.metadata)
      rw [List.map_map, List.map_map]
      rfl
    · intro hcv
      cases hv : pyDictGet meta "CV_id" with
      | none => exact absurd hv hcv
      | some v =>
        refine congrArg Except.ok (List.map_congr_left ?_)
        intro p _
        rw [show cvSourceId meta (u1 p.1) = cvSourceId meta (u2 p.1) by
          unfold cvSourceId
          rw [hv]]

/-- C10 counterexample: with metadata that lacks `CV_id`, the chunk ids
embed the uuid drawn in each run, so two runs with different uuid draws
produce different ids — the claim promises equal ids for identical text
and metadata. -/
theorem c10_counterexample :
    (chunk_by_sentences 1000 100 "Hello world." [] (fun _ => "u1")).map
        (fun cs => cs.map Chunk.id) ≠
      (chunk_by_sentences 1000 100 "Hello world." [] (fun _ => "u2")).map
        (fun cs => cs.map Chunk.id) := by
  intro h
  rw [show (chunk_by_sentences 1000 100 "Hello world." [] (fun _ => "u1")).map
        (fun cs => cs.map Chunk.id) = Except.ok ["u1_chunk#1"] from rfl,
      show (chunk_by_sentences 1000 100 "Hello world." [] (fun _ => "u2")).map
        (fun cs => cs.map Chunk.id) = Except.ok ["u2_chunk#1"] from rfl] at h
  have h2 := Except.ok.inj h
  have h3 : "u1_chunk#1" = "u2_chunk#1" := by
    injection h2
  exact absurd h3 (by decide)

/-- C10 witness: the amended statement at a concrete configuration; the
`CV_id` hypothesis is discharged on metadata that carries one. -/
theorem c10_witness :
    (chunk_by_sentences 1000 100 "Hello world." [("CV_id", PyVal.str "cv1")]
        (fun _ => "u1") =
      chunk_by_sentences 1000 100 "Hello world." [("CV_id", PyVal.str "cv1")]
        (fun _ => "u2")) :=
  (c10_determinism 1000 100 "Hello world." [("CV_id", PyVal.str "cv1")]
      (fun _ => "u1") (fun _ => "u2")).2.2
    (by rw [show pyDictGet [("CV_id", PyVal.str "cv1")] "CV_id" =
          Option.some (PyVal.str "cv1") from rfl]
        exact Option.noConfusion)

/-! ## C1 — parse totality -/

/-- C1: `InnoStandardParser.parse` NEVER returns a `CV`: the
`PersonalInfo(name=..., ...)` construction in `_parse_personal_info`
raises `TypeError` (the dataclass field is `candidate_name`), and even
past it `parse` reads `personal_info.name`, which raises
`AttributeError`; every path ends in the wrapping `ValueError`. -/
theorem c1_parse_never_returns (doc : Document) (parse_time : Nat) :
    (parse doc parse_time).isOk = false := by
  unfold parse
  cases h1 : _parse_personal_info doc with
  | error e =>
    rw [exceptBindErr]
    rfl
  | ok pi =>
    rw [exceptBindOk]
    dsimp only []
    rw [show pyGetAttrPersonalInfo pi "name" =
        Except.error "AttributeError: PersonalInfo object has no attribute name" from rfl]
    rw [exceptBindErr]
    rfl

end Spec2Proof
